import Mathlib

/-!
Shallow embedding of the runpod deployment glue
(`infra/runpod/handler_wrapper.py`, `patch_handler.py`,
`download-civitai-loras.py`, `nsw_region_masks/nodes.py`).

The filesystem is an association list from paths to byte lists; every
observable action (network request, file write, file removal, rename,
log line, mtime touch, HTTP POST, handler invocation) is recorded in an
ordered event trace.  Fallible OS and network calls are driven by
oracles in `Env`, so that a single definition covers success, connection
failure, mid-stream failure and rename failure.
-/

/-- Observable events emitted by the glue code, in order. -/
inductive Event where
  | netRequest (url : String)
  | fsWrite (path : String)
  | fsRemove (path : String)
  | fsRename (src dst : String)
  | logWarning (tag : String)
  | logInfo (tag : String)
  | utimeTouch (path : String)
  | httpPost (url : String)
  | handlerCall
deriving DecidableEq

/-- World state: files on disk plus the trace of observable events. -/
structure St where
  fs : List (String × List Nat)
  events : List Event
deriving DecidableEq

/-- Look up a file's bytes (first binding wins, like a map). -/
def fsLookup (fs : List (String × List Nat)) (p : String) : Option (List Nat) :=
  (fs.find? (fun e => e.1 == p)).map (·.2)

/-- Write (create or truncate) a file, like `open(p, "wb")` plus the write. -/
def fsSet (fs : List (String × List Nat)) (p : String) (bs : List Nat) :
    List (String × List Nat) :=
  (p, bs) :: fs.filter (fun e => e.1 != p)

/-- Remove a file, like `os.remove`. -/
def fsRemove (fs : List (String × List Nat)) (p : String) : List (String × List Nat) :=
  fs.filter (fun e => e.1 != p)

/-- Outcome of `urllib.request.urlopen` + `shutil.copyfileobj` for a URL:
full success, failure before any byte is written (`urlopen` raised), or
failure mid-stream after writing a prefix of the bytes. -/
inductive NetResult where
  | ok (bytes : List Nat)
  | connectErr (msg : String)
  | streamErr (got : List Nat) (msg : String)
deriving DecidableEq

/-- Outcome of `requests.post` to the refresh endpoint. -/
inductive PostResult where
  | response (status : Nat) (text : String)
  | transportErr (msg : String)
deriving DecidableEq

/-- Oracles driving every fallible OS / network call. -/
structure Env where
  net : String → NetResult
  renameFail : String → Option String
  utimeFail : Option String
  postResult : PostResult

/-- `os.path.join` for the paths this code builds (no absolute second arg). -/
def pathJoin (a b : String) : String := a ++ "/" ++ b

/-- One element of the `character_lora_downloads` list.  The source reads
`entry.get("filename", "")` and `entry.get("url", "")`, so a missing key
and an empty string are indistinguishable; both are the empty string here. -/
structure Entry where
  filename : String
  url : String
deriving DecidableEq

/-- The `RuntimeError` message raised on a failed download
(`f"Failed to download character LoRA {filename}: {e}"`). -/
def errMsg (filename cause : String) : String :=
  "Failed to download character LoRA " ++ filename ++ ": " ++ cause

/-- `download_character_loras` from `handler_wrapper.py` (identical logic to
`_nsw_download_character_loras` in `patch_handler.py`): for each entry in
order, skip entries with empty filename/url, skip cached files, otherwise
stream to `dest + ".tmp"` and rename; on any failure remove the temp file
and raise, returning `some errorMessage` and attempting no further entry. -/
def download_character_loras (env : Env) (lorasDir : String) :
    List Entry → St → St × Option String
  | [], st => (st, none)
  | e :: rest, st =>
    if e.filename = "" ∨ e.url = "" then
      download_character_loras env lorasDir rest
        {st with events := st.events ++ [.logWarning e.filename]}
    else
      let dest := pathJoin lorasDir e.filename
      match fsLookup st.fs dest with
      | some _ =>
        download_character_loras env lorasDir rest
          {st with events := st.events ++ [.logInfo e.filename]}
      | none =>
        let tmp := dest ++ ".tmp"
        let st1 : St := {st with events := st.events ++ [.netRequest e.url]}
        match env.net e.url with
        | .connectErr m =>
          -- urlopen raised before the temp file was opened; the cleanup
          -- still removes a leftover temp file if one exists.
          let st2 : St :=
            if (fsLookup st1.fs tmp).isSome then
              {st1 with fs := fsRemove st1.fs tmp,
                        events := st1.events ++ [.fsRemove tmp]}
            else st1
          (st2, some (errMsg e.filename m))
        | .streamErr got m =>
          let st2 : St := {st1 with fs := fsSet st1.fs tmp got,
                                    events := st1.events ++ [.fsWrite tmp]}
          let st3 : St := {st2 with fs := fsRemove st2.fs tmp,
                                    events := st2.events ++ [.fsRemove tmp]}
          (st3, some (errMsg e.filename m))
        | .ok bytes =>
          let st2 : St := {st1 with fs := fsSet st1.fs tmp bytes,
                                    events := st1.events ++ [.fsWrite tmp]}
          match env.renameFail dest with
          | some m =>
            let st3 : St := {st2 with fs := fsRemove st2.fs tmp,
                                      events := st2.events ++ [.fsRemove tmp]}
            (st3, some (errMsg e.filename m))
          | none =>
            let st3 : St := {st2 with
              fs := fsSet (fsRemove st2.fs tmp) dest bytes,
              events := st2.events ++ [.fsRename tmp dest]}
            download_character_loras env lorasDir rest st3

/-- Tags used for log lines in `refresh_comfyui_model_cache`. -/
def utimeTag : String := "utime"

def refreshedTag : String := "refreshed"

def refreshStatusTag : String := "refresh-status"

def refreshTransportTag : String := "refresh-transport"

def comfyHost : String := "127.0.0.1:8188"

def refreshUrl : String := "http://" ++ comfyHost ++ "/api/nsw/refresh-models"

/-- `refresh_comfyui_model_cache` from `handler_wrapper.py`: touch the loras
directory's mtime, then POST to the refresh endpoint; every failure of either
step is logged and swallowed, so the function is total. -/
def refresh_comfyui_model_cache (env : Env) (lorasDir : String) (st : St) : St :=
  let st1 : St :=
    match env.utimeFail with
    | none => {st with events := st.events ++ [.utimeTouch lorasDir, .logInfo utimeTag]}
    | some _ => {st with events := st.events ++ [.logWarning utimeTag]}
  let st2 : St := {st1 with events := st1.events ++ [.httpPost refreshUrl]}
  match env.postResult with
  | .response s _ =>
    if s = 200 then {st2 with events := st2.events ++ [.logInfo refreshedTag]}
    else {st2 with events := st2.events ++ [.logWarning refreshStatusTag]}
  | .transportErr _ =>
    {st2 with events := st2.events ++ [.logWarning refreshTransportTag]}

/-- A job's input mapping: the one key this system reads, plus all other
keys bundled opaquely in `rest` (they are never examined). -/
structure JobInput (ρ : Type) where
  character_lora_downloads : Option (List Entry)
  rest : ρ
deriving DecidableEq

/-- An inbound job `{id, input}`. -/
structure Job (ρ : Type) where
  id : Option String
  input : JobInput ρ
deriving DecidableEq

/-- The job after `job_input.pop("character_lora_downloads", None)`:
the key is removed, everything else is untouched. -/
def stripJob {ρ : Type} (job : Job ρ) : Job ρ :=
  {job with input := {job.input with character_lora_downloads := none}}

/-- `wrapped_handler` from `handler_wrapper.py` (identical logic to
`_nsw_wrapped` in `patch_handler.py`): pop the download list from the input;
if it is non-empty, download the LoRAs (propagating any error without calling
the handler) and refresh the model cache, then delegate to the original
handler with the mutated job. -/
def wrapped_handler {ρ R : Type} (env : Env) (lorasDir : String)
    (handler_original : Job ρ → R) (job : Job ρ) (st : St) :
    St × Except String R :=
  match job.input.character_lora_downloads with
  | none =>
    ({st with events := st.events ++ [.handlerCall]}, .ok (handler_original (stripJob job)))
  | some l =>
    if l = [] then
      ({st with events := st.events ++ [.handlerCall]}, .ok (handler_original (stripJob job)))
    else
      match download_character_loras env lorasDir l st with
      | (s, some m) => (s, .error m)
      | (s, none) =>
        let s2 := refresh_comfyui_model_cache env lorasDir s
        ({s2 with events := s2.events ++ [.handlerCall]}, .ok (handler_original (stripJob job)))

/-- The configuration mapping passed to `runpod.serverless.start`: the
`handler` entry (`config.get("handler")` is `None` when the key is absent
or bound to `None`, so `Option` collapses both) plus all other entries,
bundled opaquely in `rest`. -/
structure Config (H C : Type) where
  handler : Option H
  rest : C

/-- `_nsw_patched_start` from `patch_handler.py`: extract the original
handler; if there is none, forward the configuration to the vendor
entrypoint unchanged; otherwise replace the `handler` field with the
Pre-Processor's `process` bound to the original handler and forward.
The vendor entrypoint `start0` accepts any handler type, as a Python
callable field would. -/
def nsw_patched_start {ρ R0 C R : Type} (env : Env) (lorasDir : String)
    (start0 : (T : Type) → Config T C → R)
    (config : Config (Job ρ → R0) C) : R :=
  match config.handler with
  | none => start0 _ config
  | some h =>
    start0 _
      ({ handler := some (wrapped_handler env lorasDir h), rest := config.rest } :
        Config (Job ρ → St → St × Except String R0) C)

/-- URL fragments of `download-civitai-loras.py` (the token is appended). -/
def civitaiBase : String := "https://civitai.com/api/download/models/"

def civitaiUrl (modelId : String) (key : String) : String :=
  civitaiBase ++ modelId ++ "?token=" ++ key

def civitaiId1 : String := "177674"
def civitaiId2 : String := "2686970"
def civitaiId3 : String := "435833"
def civitaiId4 : String := "1746981"

def civitaiName1 : String := "better-bodies-xl.safetensors"
def civitaiName2 : String := "cinecolor-harmonizer.safetensors"
def civitaiName3 : String := "melanin-mix-xl.safetensors"
def civitaiName4 : String := "couples-poses-xl.safetensors"

/-- The hard-coded `loras` list of `download-civitai-loras.py`. -/
def civitaiLoras (key : String) : List (String × String) :=
  [(civitaiUrl civitaiId1 key, civitaiName1),
   (civitaiUrl civitaiId2 key, civitaiName2),
   (civitaiUrl civitaiId3 key, civitaiName3),
   (civitaiUrl civitaiId4 key, civitaiName4)]

/-- One iteration of the download loop in `download-civitai-loras.py`:
on success the bytes land directly at the final path; on a mid-stream
failure the partially written file is left in place (no temp file is
used by this script); either failure increments the `failed` counter. -/
def civitai_step (net : String → NetResult) (loraDir : String)
    (acc : St × Nat) (entry : String × String) : St × Nat :=
  let st := acc.1
  let path := loraDir ++ entry.2
  let st1 : St := {st with events := st.events ++ [.netRequest entry.1]}
  match net entry.1 with
  | .ok bytes =>
    ({st1 with fs := fsSet st1.fs path bytes,
               events := st1.events ++ [.fsWrite path]}, acc.2)
  | .connectErr _ => (st1, acc.2 + 1)
  | .streamErr got _ =>
    ({st1 with fs := fsSet st1.fs path got,
               events := st1.events ++ [.fsWrite path]}, acc.2 + 1)

/-- `download-civitai-loras.py` as a whole: exit 0 immediately when the API
key is absent, otherwise run the loop and exit 1 when any download failed,
0 otherwise.  Returns the final state and the process exit code. -/
def civitai_main (key : String) (net : String → NetResult) (loraDir : String)
    (st : St) : St × Nat :=
  if key = "" then (st, 0)
  else
    let r := (civitaiLoras key).foldl (civitai_step net loraDir) (st, 0)
    (r.1, if r.2 ≠ 0 then 1 else 0)

/-- A rank-3 tensor: its shape and its value at each index triple.  Values
outside the shape are irrelevant (the constructors below keep them 0). -/
structure Tensor3 where
  dims : Nat × Nat × Nat
  val : Nat → Nat → Nat → ℚ

/-- `torch.zeros(d, h, w)`. -/
def torchZeros (d h w : Nat) : Tensor3 :=
  { dims := (d, h, w), val := fun _ _ _ => 0 }

/-- `t[:, :, s:e] = v` for `0 ≤ s, e`: assigns `v` at every in-bounds index
whose last coordinate lies in `[s, e)` (Python slices clamp to the bound, and
an empty range when `s ≥ e` assigns nothing). -/
def sliceAssignW (t : Tensor3) (s e : Nat) (v : ℚ) : Tensor3 :=
  { t with
    val := fun i j k =>
      if s ≤ k ∧ k < e ∧ i < t.dims.1 ∧ j < t.dims.2.1 ∧ k < t.dims.2.2 then v
      else t.val i j k }

/-- Python `int()` on a rational: truncation toward zero. -/
def pyInt (q : ℚ) : ℤ := if 0 ≤ q then ⌊q⌋ else ⌈q⌉

/-- `CreateRegionMask.create_mask` from `nsw_region_masks/nodes.py`:
a zero tensor of shape `(1, height, width)` whose columns in
`[int(width*start_pct), int(width*end_pct))` are set to `1.0`. -/
def create_mask (width height : Nat) (start_pct end_pct : ℚ) : Tensor3 :=
  let mask := torchZeros 1 height width
  let start_px := (pyInt (width * start_pct)).toNat
  let end_px := (pyInt (width * end_pct)).toNat
  sliceAssignW mask start_px end_px 1

/-! ### Step lemmas for the download loop -/

/-- An entry with an empty filename or URL is skipped with a warning. -/
lemma dcl_cons_skip (env : Env) (d : String) (e : Entry) (rest : List Entry)
    (st : St) (h : e.filename = "" ∨ e.url = "") :
    download_character_loras env d (e :: rest) st =
      download_character_loras env d rest
        {st with events := st.events ++ [.logWarning e.filename]} := by
  simp only [download_character_loras, if_pos h]

/-- A cached entry is skipped with an informational log line. -/
lemma dcl_cons_cached (env : Env) (d : String) (e : Entry) (rest : List Entry)
    (st : St) (bs : List Nat) (h : ¬(e.filename = "" ∨ e.url = ""))
    (hc : fsLookup st.fs (pathJoin d e.filename) = some bs) :
    download_character_loras env d (e :: rest) st =
      download_character_loras env d rest
        {st with events := st.events ++ [.logInfo e.filename]} := by
  simp only [download_character_loras, if_neg h, hc]

/-- A non-cached entry whose connection fails: the batch stops with the
error naming the entry, after removing any leftover temp file. -/
lemma dcl_cons_connectErr (env : Env) (d : String) (e : Entry)
    (rest : List Entry) (st : St) (m : String)
    (h : ¬(e.filename = "" ∨ e.url = ""))
    (hc : fsLookup st.fs (pathJoin d e.filename) = none)
    (hn : env.net e.url = .connectErr m) :
    download_character_loras env d (e :: rest) st =
      (if (fsLookup st.fs (pathJoin d e.filename ++ ".tmp")).isSome then
        {st with fs := fsRemove st.fs (pathJoin d e.filename ++ ".tmp"),
                 events := st.events ++ [.netRequest e.url,
                   .fsRemove (pathJoin d e.filename ++ ".tmp")]}
       else {st with events := st.events ++ [.netRequest e.url]},
       some (errMsg e.filename m)) := by
  simp only [download_character_loras, if_neg h, hc, hn]
  split <;> simp_all [List.append_assoc]

/-- A non-cached entry whose stream is interrupted: the partial temp file
is written then removed, and the batch stops with the error naming the
entry. -/
lemma dcl_cons_streamErr (env : Env) (d : String) (e : Entry)
    (rest : List Entry) (st : St) (got : List Nat) (m : String)
    (h : ¬(e.filename = "" ∨ e.url = ""))
    (hc : fsLookup st.fs (pathJoin d e.filename) = none)
    (hn : env.net e.url = .streamErr got m) :
    download_character_loras env d (e :: rest) st =
      ({st with
          fs := fsRemove (fsSet st.fs (pathJoin d e.filename ++ ".tmp") got)
            (pathJoin d e.filename ++ ".tmp"),
          events := st.events ++ [.netRequest e.url,
            .fsWrite (pathJoin d e.filename ++ ".tmp"),
            .fsRemove (pathJoin d e.filename ++ ".tmp")]},
       some (errMsg e.filename m)) := by
  simp only [download_character_loras, if_neg h, hc, hn]
  simp [List.append_assoc]

/-- A non-cached entry whose download succeeds but whose rename fails:
the temp file is removed and the batch stops with the error naming the
entry. -/
lemma dcl_cons_renameFail (env : Env) (d : String) (e : Entry)
    (rest : List Entry) (st : St) (bytes : List Nat) (m : String)
    (h : ¬(e.filename = "" ∨ e.url = ""))
    (hc : fsLookup st.fs (pathJoin d e.filename) = none)
    (hn : env.net e.url = .ok bytes)
    (hr : env.renameFail (pathJoin d e.filename) = some m) :
    download_character_loras env d (e :: rest) st =
      ({st with
          fs := fsRemove (fsSet st.fs (pathJoin d e.filename ++ ".tmp") bytes)
            (pathJoin d e.filename ++ ".tmp"),
          events := st.events ++ [.netRequest e.url,
            .fsWrite (pathJoin d e.filename ++ ".tmp"),
            .fsRemove (pathJoin d e.filename ++ ".tmp")]},
       some (errMsg e.filename m)) := by
  simp only [download_character_loras, if_neg h, hc, hn, hr]
  simp [List.append_assoc]

/-- A non-cached entry whose download and rename both succeed: the bytes
land at the destination via the temp file and the loop continues. -/
lemma dcl_cons_ok (env : Env) (d : String) (e : Entry) (rest : List Entry)
    (st : St) (bytes : List Nat)
    (h : ¬(e.filename = "" ∨ e.url = ""))
    (hc : fsLookup st.fs (pathJoin d e.filename) = none)
    (hn : env.net e.url = .ok bytes)
    (hr : env.renameFail (pathJoin d e.filename) = none) :
    download_character_loras env d (e :: rest) st =
      download_character_loras env d rest
        {st with
          fs := fsSet (fsRemove (fsSet st.fs (pathJoin d e.filename ++ ".tmp") bytes)
            (pathJoin d e.filename ++ ".tmp")) (pathJoin d e.filename) bytes,
          events := st.events ++ [.netRequest e.url,
            .fsWrite (pathJoin d e.filename ++ ".tmp"),
            .fsRename (pathJoin d e.filename ++ ".tmp") (pathJoin d e.filename)]} := by
  simp only [download_character_loras, if_neg h, hc, hn, hr]
  simp [List.append_assoc]

/-- The download loop never emits a `handlerCall` event. -/
lemma dcl_count_handlerCall (env : Env) (d : String) :
    ∀ (l : List Entry) (st : St),
      ((download_character_loras env d l st).1.events).count Event.handlerCall =
        st.events.count Event.handlerCall := by
  intro l
  induction l with
  | nil => intro st; simp [download_character_loras]
  | cons e rest ih =>
    intro st
    by_cases hskip : e.filename = "" ∨ e.url = ""
    · rw [dcl_cons_skip env d e rest st hskip, ih]
      simp [List.count_append]
    · cases hc : fsLookup st.fs (pathJoin d e.filename) with
      | some bs =>
        rw [dcl_cons_cached env d e rest st bs hskip hc, ih]
        simp [List.count_append]
      | none =>
        cases hn : env.net e.url with
        | connectErr m =>
          rw [dcl_cons_connectErr env d e rest st m hskip hc hn]
          split <;> simp [List.count_append]
        | streamErr got m =>
          rw [dcl_cons_streamErr env d e rest st got m hskip hc hn]
          simp [List.count_append]
        | ok bytes =>
          cases hr : env.renameFail (pathJoin d e.filename) with
          | some m =>
            rw [dcl_cons_renameFail env d e rest st bytes m hskip hc hn hr]
            simp [List.count_append]
          | none =>
            rw [dcl_cons_ok env d e rest st bytes hskip hc hn hr, ih]
            simp [List.count_append]

/-- The cache refresh never emits a `handlerCall` event. -/
lemma refresh_count_handlerCall (env : Env) (d : String) (st : St) :
    ((refresh_comfyui_model_cache env d st).events).count Event.handlerCall =
      st.events.count Event.handlerCall := by
  unfold refresh_comfyui_model_cache
  cases env.utimeFail <;> cases env.postResult <;>
    simp [List.count_append] <;> split <;> simp [List.count_append]

/-- Processing a concatenated batch runs the first part, and continues with
the second only when the first raised no error. -/
lemma dcl_append (env : Env) (d : String) :
    ∀ (l₁ l₂ : List Entry) (st : St),
      download_character_loras env d (l₁ ++ l₂) st =
        match download_character_loras env d l₁ st with
        | (s, none) => download_character_loras env d l₂ s
        | (s, some m) => (s, some m) := by
  intro l₁
  induction l₁ with
  | nil => intro l₂ st; simp [download_character_loras]
  | cons e rest ih =>
    intro l₂ st
    by_cases hskip : e.filename = "" ∨ e.url = ""
    · rw [List.cons_append, dcl_cons_skip env d e (rest ++ l₂) _ hskip,
        dcl_cons_skip env d e rest st hskip, ih]
    · cases hc : fsLookup st.fs (pathJoin d e.filename) with
      | some bs =>
        rw [List.cons_append, dcl_cons_cached env d e (rest ++ l₂) _ bs hskip hc,
          dcl_cons_cached env d e rest st bs hskip hc, ih]
      | none =>
        cases hn : env.net e.url with
        | connectErr m =>
          rw [List.cons_append, dcl_cons_connectErr env d e (rest ++ l₂) _ m hskip hc hn,
            dcl_cons_connectErr env d e rest st m hskip hc hn]
        | streamErr got m =>
          rw [List.cons_append, dcl_cons_streamErr env d e (rest ++ l₂) _ got m hskip hc hn,
            dcl_cons_streamErr env d e rest st got m hskip hc hn]
        | ok bytes =>
          cases hr : env.renameFail (pathJoin d e.filename) with
          | some m =>
            rw [List.cons_append, dcl_cons_renameFail env d e (rest ++ l₂) _ bytes m hskip hc hn hr,
              dcl_cons_renameFail env d e rest st bytes m hskip hc hn hr]
          | none =>
            rw [List.cons_append, dcl_cons_ok env d e (rest ++ l₂) _ bytes hskip hc hn hr,
              dcl_cons_ok env d e rest st bytes hskip hc hn hr, ih]

/-- Whether processing a non-cached, well-formed entry fails (connection
error, mid-stream error, or rename failure). -/
def entryFails (env : Env) (dest url : String) : Bool :=
  match env.net url with
  | .ok _ => (env.renameFail dest).isSome
  | .connectErr _ => true
  | .streamErr _ _ => true

/-- The underlying cause reported when a non-cached entry fails. -/
def failCause (env : Env) (dest url : String) : String :=
  match env.net url with
  | .ok _ => (env.renameFail dest).getD ""
  | .connectErr m => m
  | .streamErr _ m => m

/-- Concrete values used to instantiate the theorems below. -/
def lorasDirC : String := "/comfyui/models/loras"

def fileA : String := "characters/a.safetensors"

def urlA : String := "http://example/a"

def fileB : String := "characters/b.safetensors"

def urlB : String := "http://example/b"

def causeA : String := "boom"

def entryA : Entry := { filename := fileA, url := urlA }

def entryB : Entry := { filename := fileB, url := urlB }

/-- An environment where every connection attempt fails. -/
def envDown : Env :=
  { net := fun _ => .connectErr causeA,
    renameFail := fun _ => none,
    utimeFail := none,
    postResult := .transportErr causeA }

/-- An environment where every download succeeds with bytes `[7]` but the
refresh endpoint is unreachable. -/
def envUpNoRefresh : Env :=
  { net := fun _ => .ok [7],
    renameFail := fun _ => none,
    utimeFail := some causeA,
    postResult := .transportErr causeA }

/-- The empty starting state. -/
def st0 : St := { fs := [], events := [] }

/-- A state where `entryA`'s destination file is already cached. -/
def stCachedA : St := { fs := [(pathJoin lorasDirC fileA, [1, 2, 3])], events := [] }

/-- C2: if the entries before `e` all succeed and `e` (well-formed, not
cached at the state reached) fails during download or rename, then the whole
batch computes exactly as if the entries after `e` were absent — no network
call, filesystem write or any other effect happens for them — and the batch
raises the error message naming `e`'s filename and the underlying cause. -/
theorem claim_C2_batch_abort (env : Env) (d : String) (pre : List Entry)
    (e : Entry) (rest : List Entry) (stA stB : St)
    (hpre : download_character_loras env d pre stA = (stB, none))
    (hwf : ¬(e.filename = "" ∨ e.url = ""))
    (hc : fsLookup stB.fs (pathJoin d e.filename) = none)
    (hfail : entryFails env (pathJoin d e.filename) e.url = true) :
    download_character_loras env d (pre ++ e :: rest) stA =
      download_character_loras env d (pre ++ [e]) stA ∧
    (download_character_loras env d (pre ++ [e]) stA).2 =
      some (errMsg e.filename (failCause env (pathJoin d e.filename) e.url)) := by
  rw [dcl_append env d pre (e :: rest) stA, dcl_append env d pre [e] stA, hpre]
  simp only
  cases hn : env.net e.url with
  | connectErr m =>
    rw [dcl_cons_connectErr env d e rest stB m hwf hc hn,
      dcl_cons_connectErr env d e [] stB m hwf hc hn]
    simp [failCause, hn]
  | streamErr got m =>
    rw [dcl_cons_streamErr env d e rest stB got m hwf hc hn,
      dcl_cons_streamErr env d e [] stB got m hwf hc hn]
    simp [failCause, hn]
  | ok bytes =>
    cases hr : env.renameFail (pathJoin d e.filename) with
    | some m =>
      rw [dcl_cons_renameFail env d e rest stB bytes m hwf hc hn hr,
        dcl_cons_renameFail env d e [] stB bytes m hwf hc hn hr]
      simp [failCause, hn, hr]
    | none =>
      exfalso
      simp [entryFails, hn, hr] at hfail

theorem claim_C2_batch_abort_witness :
    (download_character_loras envDown lorasDirC [] st0 = (st0, none) ∧
      ¬(entryA.filename = "" ∨ entryA.url = "") ∧
      fsLookup st0.fs (pathJoin lorasDirC entryA.filename) = none ∧
      entryFails envDown (pathJoin lorasDirC entryA.filename) entryA.url = true) ∧
    (download_character_loras envDown lorasDirC ([] ++ entryA :: [entryB]) st0 =
      download_character_loras envDown lorasDirC ([] ++ [entryA]) st0 ∧
    (download_character_loras envDown lorasDirC ([] ++ [entryA]) st0).2 =
      some (errMsg entryA.filename
        (failCause envDown (pathJoin lorasDirC entryA.filename) entryA.url))) :=
  ⟨⟨by decide, by decide, by decide, by decide⟩,
   claim_C2_batch_abort envDown lorasDirC [] entryA [entryB] st0 st0
     (by decide) (by decide) (by decide) (by decide)⟩

/-- C3: an asset request whose destination file already exists is a pure
cache hit: its processing makes no network request and changes no file —
it only appends one informational log event and continues with the rest;
run alone it leaves the filesystem exactly as it was and raises nothing,
with no re-validation of the cached bytes. -/
theorem claim_C3_cache_hit (env : Env) (d : String) (e : Entry)
    (rest : List Entry) (st : St) (bs : List Nat)
    (hwf : ¬(e.filename = "" ∨ e.url = ""))
    (hc : fsLookup st.fs (pathJoin d e.filename) = some bs) :
    download_character_loras env d (e :: rest) st =
      download_character_loras env d rest
        {st with events := st.events ++ [.logInfo e.filename]} ∧
    download_character_loras env d [e] st =
      ({st with events := st.events ++ [.logInfo e.filename]}, none) := by
  refine ⟨dcl_cons_cached env d e rest st bs hwf hc, ?_⟩
  rw [dcl_cons_cached env d e [] st bs hwf hc]
  simp [download_character_loras]

theorem claim_C3_cache_hit_witness :
    (¬(entryA.filename = "" ∨ entryA.url = "") ∧
      fsLookup stCachedA.fs (pathJoin lorasDirC entryA.filename) = some [1, 2, 3]) ∧
    (download_character_loras envDown lorasDirC (entryA :: [entryB]) stCachedA =
      download_character_loras envDown lorasDirC [entryB]
        {stCachedA with events := stCachedA.events ++ [.logInfo entryA.filename]} ∧
    download_character_loras envDown lorasDirC [entryA] stCachedA =
      ({stCachedA with events := stCachedA.events ++ [.logInfo entryA.filename]}, none)) :=
  ⟨⟨by decide, by decide⟩,
   claim_C3_cache_hit envDown lorasDirC entryA [entryB] stCachedA [1, 2, 3]
     (by decide) (by decide)⟩

/-- C8: an entry with an empty (or, equivalently after `entry.get`, missing)
filename or URL is skipped: its processing emits exactly one warning log
event, performs no network call and no filesystem change, the loop continues
with the remaining entries, and run alone it raises nothing. -/
theorem claim_C8_skip_invalid (env : Env) (d : String) (e : Entry)
    (rest : List Entry) (st : St)
    (h : e.filename = "" ∨ e.url = "") :
    download_character_loras env d (e :: rest) st =
      download_character_loras env d rest
        {st with events := st.events ++ [.logWarning e.filename]} ∧
    download_character_loras env d [e] st =
      ({st with events := st.events ++ [.logWarning e.filename]}, none) := by
  refine ⟨dcl_cons_skip env d e rest st h, ?_⟩
  rw [dcl_cons_skip env d e [] st h]
  simp [download_character_loras]

/-- An entry whose `url` key is missing (read back as the empty string). -/
def entryNoUrl : Entry := { filename := fileB, url := "" }

theorem claim_C8_skip_invalid_witness :
    (entryNoUrl.filename = "" ∨ entryNoUrl.url = "") ∧
    (download_character_loras envDown lorasDirC (entryNoUrl :: [entryA]) stCachedA =
      download_character_loras envDown lorasDirC [entryA]
        {stCachedA with events := stCachedA.events ++ [.logWarning entryNoUrl.filename]} ∧
    download_character_loras envDown lorasDirC [entryNoUrl] stCachedA =
      ({stCachedA with
          events := stCachedA.events ++ [.logWarning entryNoUrl.filename]}, none)) :=
  ⟨by decide,
   claim_C8_skip_invalid envDown lorasDirC entryNoUrl [entryA] stCachedA (by decide)⟩

/-! ### Filesystem lookup lemmas -/

lemma fsLookup_fsRemove_self (fs : List (String × List Nat)) (p : String) :
    fsLookup (fsRemove fs p) p = none := by
  induction fs with
  | nil => simp [fsLookup, fsRemove]
  | cons hd tl ih =>
    by_cases h : hd.1 = p
    · simp only [fsRemove, List.filter_cons] at *
      simp [h, ih]
    · simp only [fsRemove, List.filter_cons] at *
      simp [fsLookup, List.find?_cons, beq_iff_eq, h, ih]

lemma fsLookup_fsRemove_ne (fs : List (String × List Nat)) (p q : String)
    (h : q ≠ p) : fsLookup (fsRemove fs p) q = fsLookup fs q := by
  induction fs with
  | nil => simp [fsLookup, fsRemove]
  | cons hd tl ih =>
    by_cases h1 : hd.1 = p
    · have h2 : ¬hd.1 = q := by rw [h1]; exact fun hq => h hq.symm
      have hrm : fsRemove (hd :: tl) p = fsRemove tl p := by
        simp [fsRemove, List.filter_cons, h1]
      have hlk : fsLookup (hd :: tl) q = fsLookup tl q := by
        simp [fsLookup, List.find?_cons, beq_iff_eq, h2]
      rw [hrm, hlk]; exact ih
    · have hrm : fsRemove (hd :: tl) p = hd :: fsRemove tl p := by
        simp [fsRemove, List.filter_cons, h1]
      by_cases h2 : hd.1 = q
      · rw [hrm]
        simp [fsLookup, List.find?_cons, beq_iff_eq, h2]
      · rw [hrm]
        have hl : fsLookup (hd :: fsRemove tl p) q = fsLookup (fsRemove tl p) q := by
          simp [fsLookup, List.find?_cons, beq_iff_eq, h2]
        have hr : fsLookup (hd :: tl) q = fsLookup tl q := by
          simp [fsLookup, List.find?_cons, beq_iff_eq, h2]
        rw [hl, hr]; exact ih

lemma fsLookup_fsSet_self (fs : List (String × List Nat)) (p : String)
    (bs : List Nat) : fsLookup (fsSet fs p bs) p = some bs := by
  simp [fsLookup, fsSet]

lemma fsLookup_fsSet_ne (fs : List (String × List Nat)) (p q : String)
    (bs : List Nat) (h : q ≠ p) :
    fsLookup (fsSet fs p bs) q = fsLookup fs q := by
  have hpq : (p == q) = false := by
    simp only [beq_eq_false_iff_ne, ne_eq]
    exact fun hq => h hq.symm
  have := fsLookup_fsRemove_ne fs p q h
  simp only [fsLookup, fsSet, List.find?_cons, hpq] at *
  simpa [fsRemove] using this

/-- No string equals itself with `".tmp"` appended. -/
lemma ne_append_tmp (s : String) : s ≠ s ++ ".tmp" := by
  intro h
  have hlen := congrArg String.length h
  rw [String.length_append] at hlen
  have h4 : ".tmp".length = 4 := rfl
  omega

/-- The bytes a successful transfer delivers. -/
def netBytes (env : Env) (url : String) : List Nat :=
  match env.net url with
  | .ok bs => bs
  | .connectErr _ => []
  | .streamErr _ _ => []

/-- C4: for a well-formed, non-cached asset request, if the transfer is
interrupted (connection failure, mid-stream failure, or rename failure)
then afterwards no file exists at the final destination path and the
temporary path `destination ++ ".tmp"` has been removed, and the batch
raises; and when the transfer succeeds, the destination is created only by
renaming the fully written temporary file holding the complete bytes. -/
theorem claim_C4_atomicity (env : Env) (d : String) (e : Entry)
    (rest : List Entry) (st : St)
    (hwf : ¬(e.filename = "" ∨ e.url = ""))
    (hc : fsLookup st.fs (pathJoin d e.filename) = none) :
    (entryFails env (pathJoin d e.filename) e.url = true →
      fsLookup (download_character_loras env d (e :: rest) st).1.fs
        (pathJoin d e.filename) = none ∧
      fsLookup (download_character_loras env d (e :: rest) st).1.fs
        (pathJoin d e.filename ++ ".tmp") = none ∧
      (download_character_loras env d (e :: rest) st).2.isSome = true) ∧
    (entryFails env (pathJoin d e.filename) e.url = false →
      download_character_loras env d (e :: rest) st =
        download_character_loras env d rest
          {st with
            fs := fsSet (fsRemove (fsSet st.fs (pathJoin d e.filename ++ ".tmp")
                (netBytes env e.url)) (pathJoin d e.filename ++ ".tmp"))
              (pathJoin d e.filename) (netBytes env e.url),
            events := st.events ++ [.netRequest e.url,
              .fsWrite (pathJoin d e.filename ++ ".tmp"),
              .fsRename (pathJoin d e.filename ++ ".tmp") (pathJoin d e.filename)]}) := by
  have hne : pathJoin d e.filename ≠ pathJoin d e.filename ++ ".tmp" :=
    ne_append_tmp _
  constructor
  · intro hfail
    cases hn : env.net e.url with
    | connectErr m =>
      rw [dcl_cons_connectErr env d e rest st m hwf hc hn]
      by_cases htmp : (fsLookup st.fs (pathJoin d e.filename ++ ".tmp")).isSome
      · rw [if_pos htmp]
        exact ⟨by rw [fsLookup_fsRemove_ne _ _ _ hne]; exact hc,
          fsLookup_fsRemove_self _ _, rfl⟩
      · rw [if_neg htmp]
        exact ⟨hc, Option.not_isSome_iff_eq_none.mp htmp, rfl⟩
    | streamErr got m =>
      rw [dcl_cons_streamErr env d e rest st got m hwf hc hn]
      refine ⟨?_, fsLookup_fsRemove_self _ _, rfl⟩
      rw [fsLookup_fsRemove_ne _ _ _ hne, fsLookup_fsSet_ne _ _ _ _ hne]
      exact hc
    | ok bytes =>
      cases hr : env.renameFail (pathJoin d e.filename) with
      | some m =>
        rw [dcl_cons_renameFail env d e rest st bytes m hwf hc hn hr]
        refine ⟨?_, fsLookup_fsRemove_self _ _, rfl⟩
        rw [fsLookup_fsRemove_ne _ _ _ hne, fsLookup_fsSet_ne _ _ _ _ hne]
        exact hc
      | none =>
        exfalso
        simp [entryFails, hn, hr] at hfail
  · intro hok
    cases hn : env.net e.url with
    | connectErr m => simp [entryFails, hn] at hok
    | streamErr got m => simp [entryFails, hn] at hok
    | ok bytes =>
      cases hr : env.renameFail (pathJoin d e.filename) with
      | some m => simp [entryFails, hn, hr] at hok
      | none =>
        have hb : netBytes env e.url = bytes := by simp [netBytes, hn]
        rw [hb]
        exact dcl_cons_ok env d e rest st bytes hwf hc hn hr

theorem claim_C4_atomicity_witness :
    (¬(entryA.filename = "" ∨ entryA.url = "") ∧
      fsLookup st0.fs (pathJoin lorasDirC entryA.filename) = none) ∧
    ((entryFails envDown (pathJoin lorasDirC entryA.filename) entryA.url = true →
      fsLookup (download_character_loras envDown lorasDirC (entryA :: []) st0).1.fs
        (pathJoin lorasDirC entryA.filename) = none ∧
      fsLookup (download_character_loras envDown lorasDirC (entryA :: []) st0).1.fs
        (pathJoin lorasDirC entryA.filename ++ ".tmp") = none ∧
      (download_character_loras envDown lorasDirC (entryA :: []) st0).2.isSome = true) ∧
    (entryFails envDown (pathJoin lorasDirC entryA.filename) entryA.url = false →
      download_character_loras envDown lorasDirC (entryA :: []) st0 =
        download_character_loras envDown lorasDirC []
          {st0 with
            fs := fsSet (fsRemove (fsSet st0.fs
                (pathJoin lorasDirC entryA.filename ++ ".tmp")
                (netBytes envDown entryA.url))
                (pathJoin lorasDirC entryA.filename ++ ".tmp"))
              (pathJoin lorasDirC entryA.filename) (netBytes envDown entryA.url),
            events := st0.events ++ [.netRequest entryA.url,
              .fsWrite (pathJoin lorasDirC entryA.filename ++ ".tmp"),
              .fsRename (pathJoin lorasDirC entryA.filename ++ ".tmp")
                (pathJoin lorasDirC entryA.filename)]})) :=
  ⟨⟨by decide, by decide⟩,
   claim_C4_atomicity envDown lorasDirC entryA [] st0 (by decide) (by decide)⟩

/-- Whether an `Except` is a success. -/
def exceptOk {ε α : Type} : Except ε α → Bool
  | .ok _ => true
  | .error _ => false

/-- Popping an absent key is the identity on the job. -/
lemma stripJob_of_none {ρ : Type} (job : Job ρ)
    (h : job.input.character_lora_downloads = none) : stripJob job = job := by
  cases job with
  | mk id input =>
    cases input with
    | mk dl r =>
      simp only [stripJob]
      simp at h
      simp [h]

/-- C1: for a job whose input carries a non-empty `character_lora_downloads`
list, the key is popped before any fetch, so whenever the wrapped handler is
invoked it receives the job with that key removed; and if the fetch raises,
the wrapped handler is never invoked (no `handlerCall` event occurs). -/
theorem claim_C1_field_removal {ρ R : Type} (env : Env) (d : String)
    (h : Job ρ → R) (job : Job ρ) (l : List Entry) (st : St)
    (hst : st.events = [])
    (hdl : job.input.character_lora_downloads = some l) (hne : l ≠ []) :
    (exceptOk (wrapped_handler env d h job st).2 = true →
      (wrapped_handler env d h job st).2 = .ok (h (stripJob job))) ∧
    (exceptOk (wrapped_handler env d h job st).2 = false →
      Event.handlerCall ∉ (wrapped_handler env d h job st).1.events) := by
  have hcount := dcl_count_handlerCall env d l st
  simp only [wrapped_handler, hdl]
  rw [if_neg hne]
  rcases hdcl : download_character_loras env d l st with ⟨s, o⟩
  rw [hdcl] at hcount
  cases o with
  | some m =>
    constructor
    · intro habs; simp [exceptOk] at habs
    · intro _
      have hzero : s.events.count Event.handlerCall = 0 := by
        rw [hcount, hst]; rfl
      exact List.count_eq_zero.mp hzero
  | none =>
    constructor
    · intro _; rfl
    · intro habs; simp [exceptOk] at habs

def idJ : String := "j1"

def handlerConst : Job Bool → Nat := fun _ => 42

/-- A job asking for one character LoRA, with one opaque extra input key. -/
def jobA : Job Bool :=
  { id := some idJ, input := { character_lora_downloads := some [entryA], rest := true } }

theorem claim_C1_field_removal_witness :
    ((st0.events = []) ∧
      jobA.input.character_lora_downloads = some [entryA] ∧ [entryA] ≠ []) ∧
    ((exceptOk (wrapped_handler envDown lorasDirC handlerConst jobA st0).2 = true →
      (wrapped_handler envDown lorasDirC handlerConst jobA st0).2 =
        .ok (handlerConst (stripJob jobA))) ∧
    (exceptOk (wrapped_handler envDown lorasDirC handlerConst jobA st0).2 = false →
      Event.handlerCall ∉
        (wrapped_handler envDown lorasDirC handlerConst jobA st0).1.events)) :=
  ⟨⟨by decide, by decide, by decide⟩,
   claim_C1_field_removal envDown lorasDirC handlerConst jobA [entryA] st0
     (by decide) (by decide) (by decide)⟩

/-- A job whose download list is present but empty. -/
def jobEmptyList : Job Bool :=
  { id := some idJ, input := { character_lora_downloads := some [], rest := true } }

/-- A handler that reports whether the input it receives still carries the
(empty) `character_lora_downloads` key. -/
def handlerProbe : Job Bool → Bool :=
  fun j => decide (j.input.character_lora_downloads = some [])

/-- C5 counterexample: with an empty `character_lora_downloads` list present,
`pop` still removes the key, so the handler observes an input that differs
from the original input mapping: the probe returns `false` on what the
handler receives but `true` on the original job. -/
theorem claim_C5_counterexample :
    (wrapped_handler envDown lorasDirC handlerProbe jobEmptyList st0).2 =
      .ok false ∧ handlerProbe jobEmptyList = true :=
  ⟨rfl, rfl⟩

/-- C5 (amended): with `character_lora_downloads` absent, or present but
empty, the wrapped handler is called immediately — no download, no refresh,
no filesystem or network effect, only the handler invocation — and it
receives the job with the key popped; when the key was absent that job is
identical to the original. -/
theorem claim_C5_pass_through {ρ R : Type} (env : Env) (d : String)
    (h : Job ρ → R) (job : Job ρ) (st : St)
    (hdl : job.input.character_lora_downloads = none ∨
      job.input.character_lora_downloads = some []) :
    wrapped_handler env d h job st =
      ({st with events := st.events ++ [.handlerCall]}, .ok (h (stripJob job))) ∧
    (job.input.character_lora_downloads = none → stripJob job = job) := by
  refine ⟨?_, stripJob_of_none job⟩
  cases hdl with
  | inl hnone => simp [wrapped_handler, hnone]
  | inr hempty => simp [wrapped_handler, hempty]

theorem claim_C5_pass_through_witness :
    (jobEmptyList.input.character_lora_downloads = none ∨
      jobEmptyList.input.character_lora_downloads = some []) ∧
    (wrapped_handler envDown lorasDirC handlerProbe jobEmptyList st0 =
      ({st0 with events := st0.events ++ [.handlerCall]},
        .ok (handlerProbe (stripJob jobEmptyList))) ∧
    (jobEmptyList.input.character_lora_downloads = none →
      stripJob jobEmptyList = jobEmptyList)) :=
  ⟨Or.inr rfl,
   claim_C5_pass_through envDown lorasDirC handlerProbe jobEmptyList st0 (Or.inr rfl)⟩

/-- C6: the cache invalidation is best-effort and never raises — it is a
total function of the environment — so for every outcome of the mtime touch
and of the HTTP POST (transport failure, timeout, non-200 status), a job
whose downloads all succeeded still reaches the wrapped handler: the result
is the handler's value on the popped job and exactly one `handlerCall`
event occurs. -/
theorem claim_C6_invalidation_never_fails {ρ R : Type} (env : Env) (d : String)
    (h : Job ρ → R) (job : Job ρ) (l : List Entry) (st : St)
    (hst : st.events = [])
    (hdl : job.input.character_lora_downloads = some l) (hne : l ≠ [])
    (hok : (download_character_loras env d l st).2 = none) :
    (wrapped_handler env d h job st).2 = .ok (h (stripJob job)) ∧
    ((wrapped_handler env d h job st).1.events).count Event.handlerCall = 1 := by
  have hcount := dcl_count_handlerCall env d l st
  simp only [wrapped_handler, hdl]
  rw [if_neg hne]
  rcases hdcl : download_character_loras env d l st with ⟨s, o⟩
  rw [hdcl] at hcount hok
  simp only at hok
  subst hok
  refine ⟨rfl, ?_⟩
  simp only [List.count_append, refresh_count_handlerCall env d s, hcount, hst]
  rfl

theorem claim_C6_invalidation_never_fails_witness :
    ((st0.events = []) ∧
      jobA.input.character_lora_downloads = some [entryA] ∧ ([entryA] ≠ []) ∧
      (download_character_loras envUpNoRefresh lorasDirC [entryA] st0).2 = none) ∧
    ((wrapped_handler envUpNoRefresh lorasDirC handlerConst jobA st0).2 =
      .ok (handlerConst (stripJob jobA)) ∧
    ((wrapped_handler envUpNoRefresh lorasDirC handlerConst jobA st0).1.events).count
      Event.handlerCall = 1) :=
  ⟨⟨by decide, by decide, by decide, by decide⟩,
   claim_C6_invalidation_never_fails envUpNoRefresh lorasDirC handlerConst jobA
     [entryA] st0 (by decide) (by decide) (by decide) (by decide)⟩

/-- C7: the patched start function forwards the configuration unchanged to
the vendor entrypoint when it has no handler, and otherwise forwards it with
the handler field replaced by the Pre-Processor's `process`
(`wrapped_handler`) bound to the original handler, all other fields
untouched. -/
theorem claim_C7_shim {ρ R0 C R : Type} (env : Env) (d : String)
    (start0 : (T : Type) → Config T C → R)
    (config : Config (Job ρ → R0) C) (h0 : Job ρ → R0) :
    (config.handler = none →
      nsw_patched_start env d start0 config = start0 _ config) ∧
    (config.handler = some h0 →
      nsw_patched_start env d start0 config =
        start0 _ ({ handler := some (wrapped_handler env d h0),
                    rest := config.rest } :
          Config (Job ρ → St → St × Except String R0) C)) := by
  constructor
  · intro hnone
    simp [nsw_patched_start, hnone]
  · intro hsome
    simp [nsw_patched_start, hsome]

/-- A concrete vendor entrypoint observing only whether a handler is set. -/
def start0C : (T : Type) → Config T Unit → Nat :=
  fun _ c => if c.handler.isSome then 1 else 0

/-- A concrete configuration with a handler installed. -/
def configWith : Config (Job Bool → Nat) Unit :=
  { handler := some handlerConst, rest := () }

theorem claim_C7_shim_witness :
    nsw_patched_start envDown lorasDirC start0C configWith =
      start0C _ ({ handler := some (wrapped_handler envDown lorasDirC handlerConst),
                   rest := configWith.rest } :
        Config (Job Bool → St → St × Except String Nat) Unit) :=
  (claim_C7_shim envDown lorasDirC start0C configWith handlerConst).2 rfl

/-- Whether a URL downloads successfully in the given network. -/
def netOkB (net : String → NetResult) (url : String) : Bool :=
  match net url with
  | .ok _ => true
  | .connectErr _ => false
  | .streamErr _ _ => false

/-- How many entries of a build-time download list fail. -/
def countFailures (net : String → NetResult) (l : List (String × String)) : Nat :=
  (l.filter (fun p => !(netOkB net p.1))).length

/-- The `failed` counter of the build script counts exactly the entries
whose download fails. -/
lemma civitai_fold_count (net : String → NetResult) (dir : String) :
    ∀ (l : List (String × String)) (st : St) (k : Nat),
      (l.foldl (civitai_step net dir) (st, k)).2 = k + countFailures net l := by
  intro l
  induction l with
  | nil => intro st k; simp [countFailures]
  | cons hd tl ih =>
    intro st k
    rw [List.foldl_cons]
    cases hn : net hd.1 with
    | ok bytes =>
      simp only [civitai_step, hn]
      rw [ih]
      simp [countFailures, List.filter_cons, netOkB, hn]
    | connectErr m =>
      simp only [civitai_step, hn]
      rw [ih]
      simp [countFailures, List.filter_cons, netOkB, hn]
      omega
    | streamErr got m =>
      simp only [civitai_step, hn]
      rw [ih]
      simp [countFailures, List.filter_cons, netOkB, hn]
      omega

/-- C9: `download-civitai-loras.py` exits 0 when the API key is absent (the
step is skipped), exits 0 when all four downloads succeed, and exits with a
non-zero code when any download fails. -/
theorem claim_C9_exit_codes (key : String) (net : String → NetResult)
    (dir : String) (st : St) :
    (key = "" → (civitai_main key net dir st).2 = 0) ∧
    (key ≠ "" → countFailures net (civitaiLoras key) = 0 →
      (civitai_main key net dir st).2 = 0) ∧
    (key ≠ "" → countFailures net (civitaiLoras key) ≠ 0 →
      (civitai_main key net dir st).2 ≠ 0) := by
  refine ⟨fun hk => by simp [civitai_main, hk], ?_, ?_⟩
  · intro hk hzero
    simp only [civitai_main, if_neg hk]
    rw [civitai_fold_count net dir (civitaiLoras key) st 0] at *
    simp [hzero]
  · intro hk hnz
    simp only [civitai_main, if_neg hk]
    rw [civitai_fold_count net dir (civitaiLoras key) st 0] at *
    simp [hnz]

def keyNone : String := ""

theorem claim_C9_exit_codes_witness :
    keyNone = "" ∧ (civitai_main keyNone envDown.net lorasDirC st0).2 = 0 :=
  ⟨rfl, (claim_C9_exit_codes keyNone envDown.net lorasDirC st0).1 rfl⟩

/-- C10: `create_mask` returns a tensor of shape `(1, height, width)` whose
entry at each in-range row and column is `1.0` exactly on the columns in
`[int(width*start_pct), int(width*end_pct))` and `0.0` elsewhere; when the
computed start is at or past the computed end the mask is all zeros, and
every entry is exactly `0.0` or `1.0`. -/
theorem claim_C10_region_mask (width height : Nat) (sp ep : ℚ)
    (hw : 1 ≤ width) (hh : 1 ≤ height)
    (hsp0 : 0 ≤ sp) (hsp1 : sp ≤ 1) (hep0 : 0 ≤ ep) (hep1 : ep ≤ 1)
    (r c : Nat) (hr : r < height) (hc : c < width) :
    (create_mask width height sp ep).dims = (1, height, width) ∧
    (create_mask width height sp ep).val 0 r c =
      (if (pyInt (width * sp)).toNat ≤ c ∧ c < (pyInt (width * ep)).toNat
       then 1 else 0) ∧
    ((pyInt (width * ep)).toNat ≤ (pyInt (width * sp)).toNat →
      (create_mask width height sp ep).val 0 r c = 0) ∧
    ((create_mask width height sp ep).val 0 r c = 0 ∨
      (create_mask width height sp ep).val 0 r c = 1) := by
  have hval : (create_mask width height sp ep).val 0 r c =
      (if (pyInt (width * sp)).toNat ≤ c ∧ c < (pyInt (width * ep)).toNat
       then 1 else 0) := by
    simp only [create_mask, sliceAssignW, torchZeros]
    simp [hr, hc]
  refine ⟨rfl, hval, ?_, ?_⟩
  · intro hle
    rw [hval]
    rw [if_neg]
    omega
  · rw [hval]
    split
    · exact Or.inr rfl
    · exact Or.inl rfl

theorem claim_C10_region_mask_witness :
    ((1 ≤ 4) ∧ (1 ≤ 2) ∧ (0 ≤ (1/4 : ℚ)) ∧ ((1/4 : ℚ) ≤ 1) ∧
      (0 ≤ (3/4 : ℚ)) ∧ ((3/4 : ℚ) ≤ 1) ∧ (0 < 2) ∧ (2 < 4)) ∧
    ((create_mask 4 2 (1/4) (3/4)).dims = (1, 2, 4) ∧
    (create_mask 4 2 (1/4) (3/4)).val 0 0 2 =
      (if (pyInt ((4 : Nat) * (1/4 : ℚ))).toNat ≤ 2 ∧
          2 < (pyInt ((4 : Nat) * (3/4 : ℚ))).toNat then 1 else 0) ∧
    ((pyInt ((4 : Nat) * (3/4 : ℚ))).toNat ≤ (pyInt ((4 : Nat) * (1/4 : ℚ))).toNat →
      (create_mask 4 2 (1/4) (3/4)).val 0 0 2 = 0) ∧
    ((create_mask 4 2 (1/4) (3/4)).val 0 0 2 = 0 ∨
      (create_mask 4 2 (1/4) (3/4)).val 0 0 2 = 1)) :=
  ⟨⟨by norm_num, by norm_num, by norm_num, by norm_num, by norm_num, by norm_num,
    by norm_num, by norm_num⟩,
   claim_C10_region_mask 4 2 (1/4) (3/4) (by norm_num) (by norm_num) (by norm_num)
     (by norm_num) (by norm_num) (by norm_num) 0 2 (by norm_num) (by norm_num)⟩
